import Mathlib

/-!
Shallow embedding of `src/graph_generator.py`: the table classifier
(`DataProcessor.generate_sector_dict`), the graph upsert engine
(`Neo4jLoader.load_dataframe` and the Cypher query it builds), and the
`__main__` ingestion loop with its try/finally discipline.

The Graph Store (Neo4j) is modelled by the documented Cypher semantics of the
operations the query uses: `MERGE` is find-or-create on label+key (an error on
a null key property or a null bound node), `ON CREATE SET` assigns attributes
only at creation (assigning null sets nothing), `toInteger`/`toFloat` return
null when the value cannot be coerced, and single-quoted string literals use
backslash escapes.
-/

deriving instance DecidableEq for Except

/-- A cell value of a loaded table, as it reaches the query's `$rows`
parameter (pandas `to_dict('records')`): a string, an integer, a decimal
number (modelled as a rational), or null. -/
inductive Val where
  | str (s : String)
  | int (n : Int)
  | num (q : ℚ)
  | null
deriving DecidableEq, Repr

/-- A table row: an association of column names to values. -/
abbrev Row := List (String × Val)

/-- Cypher map access `row.c` / `row[c]`: the value at key `c`, null when the
key is absent. -/
def rowGet (r : Row) (c : String) : Val :=
  match r.find? (fun p => decide (p.1 = c)) with
  | some p => p.2
  | none => Val.null

/-- Cypher `keys(row)`. -/
def rowKeys (r : Row) : List String := r.map Prod.fst

/-- Digits of a decimal numeral to a natural number; `none` on the empty list
or a non-digit character. -/
def natOfDigits : List Char → Option Nat
  | [] => none
  | cs => cs.foldlM (fun acc c => if c.isDigit then some (acc * 10 + (c.toNat - 48)) else none) 0

/-- Parse a plain decimal numeral (optional sign, digits, optional fractional
part) as a rational; `none` otherwise.  Models the strings Cypher `toFloat`
accepts in the fragment of behavior this development needs: a non-numeric
string yields null. -/
def parseDecQ (s : String) : Option ℚ :=
  let cs := s.data
  let signApplied : Bool × List Char :=
    match cs with
    | '-' :: t => (true, t)
    | t => (false, t)
  let neg := signApplied.1
  let body := signApplied.2
  match body.span (fun c => decide (c ≠ '.')) with
  | (intPart, []) =>
    match natOfDigits intPart with
    | some n => some (if neg then -(n : ℚ) else (n : ℚ))
    | none => none
  | (intPart, dot :: fracPart) =>
    if dot = '.' then
      match natOfDigits intPart, natOfDigits fracPart with
      | some n, some f =>
        let q : ℚ := (n : ℚ) + (f : ℚ) / ((10 : ℚ) ^ fracPart.length)
        some (if neg then -q else q)
      | _, _ => none
    else none

/-- Cypher `toFloat`: numbers pass through, numeric strings are parsed,
anything else (including null) yields null. -/
def toFloatV : Val → Option ℚ
  | .str s => parseDecQ s
  | .int n => some (n : ℚ)
  | .num q => some q
  | .null => none

/-- Cypher `toInteger`: integers pass through, other numerics truncate toward
zero, numeric strings are parsed then truncated, anything else yields null. -/
def toIntegerV : Val → Option Int
  | .str s =>
    match parseDecQ s with
    | some q => some (Int.tdiv q.num q.den)
    | none => none
  | .int n => some n
  | .num q => some (Int.tdiv q.num q.den)
  | .null => none

/-- Python `str(x)` as applied at line 114 of the source: a string is itself,
and `None` prints as `"None"`. -/
def pyStr : Option String → String
  | none => "None"
  | some s => s

/-- Python truthiness of the optional sub-sector value, as tested by
`if processor.sector_dict[i]:` — `None` and the empty string are falsy. -/
def pyTruthy : Option String → Bool
  | none => false
  | some s => decide (s ≠ "")

/-- Characters of `s.replace("'", "\\'")` (source lines 114-115): each single
quote is replaced by a backslash followed by a quote. -/
def escChars : List Char → List Char
  | [] => []
  | c :: rest => if c = '\'' then '\\' :: '\'' :: escChars rest else c :: escChars rest

/-- Python `s.replace("'", "\\'")` on strings. -/
def escapeQ (s : String) : String := String.mk (escChars s.data)

/-- Cypher lexing of the body of a single-quoted string literal: `some cs`
when the whole fragment is one complete literal body denoting `cs`
(backslash escapes a character), `none` when the fragment is malformed — a
dangling backslash or an unescaped quote would split or corrupt the
surrounding query text. -/
def parseLitBody : List Char → Option (List Char)
  | [] => some []
  | c :: rest =>
    if c = '\\' then
      match rest with
      | [] => none
      | c2 :: rest2 => Option.map (fun l => c2 :: l) (parseLitBody rest2)
    else if c = '\'' then none
    else Option.map (fun l => c :: l) (parseLitBody rest)

/-- Python `key.split('_')` on strings, via structural recursion over the
characters. -/
def splitOnChar (sep : Char) : List Char → List (List Char)
  | [] => [[]]
  | c :: rest =>
    let r := splitOnChar sep rest
    if c = sep then [] :: r
    else
      match r with
      | [] => [[c]]
      | h :: t => (c :: h) :: t

/-- Python `key.split('_')`. -/
def pySplitUnderscore (s : String) : List String :=
  (splitOnChar '_' s.data).map (fun l => String.mk l)

/-- Graph nodes, identified by label plus key attributes, exactly the
`MERGE` patterns of the query: `State {name}`, `EDD {name}`,
`County {name, fips_id}`, `Sector {name}`, `Sub_Sector {name}`,
`Metrics {metric_name, year, county}`. -/
inductive GNode where
  | state (name : Val)
  | edd (name : Val)
  | county (name : Val) (fips : Val)
  | sector (name : String)
  | subSector (name : String)
  | metric (metricName : String) (year : Int) (county : Val)
deriving DecidableEq, Repr

/-- A directed edge, unique by endpoints plus relationship type. -/
structure GEdge where
  src : GNode
  rel : String
  dst : GNode
deriving DecidableEq, Repr

/-- The graph store state: the set of nodes, the set of edges, and the
`value` attribute of each Metrics node (`none` inside the option means the
attribute was never set, which happens when `toFloat` returned null at
creation). -/
structure Graph where
  nodes : List GNode
  edges : List GEdge
  metricVal : List ((String × Int × Val) × Option ℚ)
deriving DecidableEq, Repr

/-- The empty graph store. -/
def Graph.empty : Graph := ⟨[], [], []⟩

/-- `MERGE` of a node: find-or-create by label+key. -/
def Graph.upsertNode (g : Graph) (n : GNode) : Graph :=
  if n ∈ g.nodes then g else { g with nodes := g.nodes ++ [n] }

/-- `MERGE` of an edge: find-or-create by endpoints+type. -/
def Graph.upsertEdge (g : Graph) (e : GEdge) : Graph :=
  if e ∈ g.edges then g else { g with edges := g.edges ++ [e] }

/-- `MERGE (metric:Metrics {...}) ON CREATE SET metric.value = v`: on first
creation the node is added and its value attribute set to `v`; when the node
already exists nothing changes (the value is never overwritten). -/
def Graph.upsertMetric (g : Graph) (c : String) (y : Int) (ct : Val) (v : Option ℚ) : Graph :=
  if GNode.metric c y ct ∈ g.nodes then g
  else { g with nodes := g.nodes ++ [GNode.metric c y ct],
                metricVal := g.metricVal ++ [((c, y, ct), v)] }

/-- The `value` attribute of the Metrics node keyed `k`: `none` when the node
does not exist, `some none` when it exists with its value never set,
`some (some q)` when it exists with value `q`. -/
def metricValue (g : Graph) (k : String × Int × Val) : Option (Option ℚ) :=
  Option.map Prod.snd (g.metricVal.find? (fun p => decide (p.1 = k)))

/-- One upsert operation of the query, in execution order. -/
inductive Op where
  | node (n : GNode)
  | edge (e : GEdge)
  | metric (c : String) (y : Int) (ct : Val) (v : Option ℚ)
deriving DecidableEq, Repr

/-- Execute one operation against the store. -/
def applyOp (g : Graph) : Op → Graph
  | .node n => g.upsertNode n
  | .edge e => g.upsertEdge e
  | .metric c y ct v => g.upsertMetric c y ct v

/-- Execute a sequence of operations in order. -/
def runOps (g : Graph) (ops : List Op) : Graph := ops.foldl applyOp g

/-- The effect of an operation is already present in the store. -/
def opDone (g : Graph) : Op → Prop
  | .node n => n ∈ g.nodes
  | .edge e => e ∈ g.edges
  | .metric c y ct _ => GNode.metric c y ct ∈ g.nodes

/-- The operation creates the Metrics node keyed `(c, y, ct)` when that node
is absent. -/
def opCreatesMetric (c : String) (y : Int) (ct : Val) : Op → Prop
  | .node n => n = GNode.metric c y ct
  | .edge _ => False
  | .metric c' y' ct' _ => c' = c ∧ y' = y ∧ ct' = ct

/-- Every creation the operation could perform for the Metrics key
`(c, y, ct)` carries no value attribute: it is not a bare node insertion of
that key, and when it is a Metrics upsert of that key its value is `none`. -/
def opSafeFor (c : String) (y : Int) (ct : Val) : Op → Prop
  | .node n => n ≠ GNode.metric c y ct
  | .edge _ => True
  | .metric c' y' ct' v' => (c' = c ∧ y' = y ∧ ct' = ct) → v' = none

/-- Errors of one `session.run` call: a `MERGE` on a null key property or a
null bound node, or a query whose text does not lex (a corrupted embedded
literal). -/
inductive LoadErr where
  | mergeNull
  | malformedQuery
deriving DecidableEq, Repr

/-- The reserved dimension columns of the query's
`WHERE NOT columnName IN ['State', 'Region', 'County', 'Year']`. -/
def reservedCols : List String := ["State", "Region", "County", "Year"]

/-- The columns of a row that reach the Metrics `MERGE`: every key not in the
reserved list (note `county_id` is not reserved). -/
def metricCols (r : Row) : List String :=
  (rowKeys r).filter (fun c => decide (¬ c ∈ reservedCols))

/-- The hierarchy `MERGE`s of lines 119-125 require their key properties to
be non-null. -/
def rowGuard (r : Row) : Bool :=
  decide (rowGet r "State" ≠ Val.null) && decide (rowGet r "Region" ≠ Val.null) &&
  decide (rowGet r "County" ≠ Val.null) && decide (rowGet r "county_id" ≠ Val.null)

/-- The hierarchy upserts of one row, in the query's clause order
(lines 119-128): State, EDD, HAS_EDD, County, HAS_COUNTY, Sector,
HAS_SECTOR, and — only when the escaped sub-sector string was non-empty so
the f-string emitted the clause — Sub_Sector and HAS_SUB_SECTOR. -/
def hierOps (secName : String) (subName : Option String) (r : Row) : List Op :=
  let st := GNode.state (rowGet r "State")
  let rg := GNode.edd (rowGet r "Region")
  let ct := GNode.county (rowGet r "County") (rowGet r "county_id")
  let sc := GNode.sector secName
  [Op.node st, Op.node rg, Op.edge ⟨st, "HAS_EDD", rg⟩,
   Op.node ct, Op.edge ⟨rg, "HAS_COUNTY", ct⟩,
   Op.node sc, Op.edge ⟨ct, "HAS_SECTOR", sc⟩] ++
  match subName with
  | some s => [Op.node (GNode.subSector s), Op.edge ⟨sc, "HAS_SUB_SECTOR", GNode.subSector s⟩]
  | none => []

/-- The metric anchor bound by `WITH row, sector, ... AS subsector`
(line 129): the Sub_Sector node when the clause was emitted, the Cypher
`NULL` otherwise. -/
def anchorOf : Option String → Option GNode
  | some s => some (GNode.subSector s)
  | none => none

/-- The operations of lines 133-135 for one column: the Metrics `MERGE`
(an error when `toInteger(row.Year)` is null, since a null key property
cannot be merged), `ON CREATE SET metric.value = toFloat(row[columnName])`,
then `MERGE (subsector)-[:REPORTS]->(metric)` (an error when the anchor is
the null `subsector`). -/
def metricOps (anchor : Option GNode) (r : Row) (c : String) : Except LoadErr (List Op) :=
  match toIntegerV (rowGet r "Year") with
  | none => .error .mergeNull
  | some y =>
    match anchor with
    | none => .error .mergeNull
    | some a =>
      .ok [Op.metric c y (rowGet r "County") (toFloatV (rowGet r c)),
           Op.edge ⟨a, "REPORTS", GNode.metric c y (rowGet r "County")⟩]

/-- The metric operations of one row over its non-reserved columns, in
column order. -/
def metricOpsAll (anchor : Option GNode) (r : Row) : List String → Except LoadErr (List Op)
  | [] => .ok []
  | c :: cs =>
    match metricOps anchor r c with
    | .error e => .error e
    | .ok os =>
      match metricOpsAll anchor r cs with
      | .error e => .error e
      | .ok rest => .ok (os ++ rest)

/-- All upsert operations the query performs for one row, or the error the
row raises: the hierarchy clauses followed by the per-column metric
clauses. -/
def rowOps (secName : String) (subName : Option String) (r : Row) : Except LoadErr (List Op) :=
  if rowGuard r then
    match metricOpsAll (anchorOf subName) r (metricCols r) with
    | .error e => .error e
    | .ok ms => .ok (hierOps secName subName r ++ ms)
  else .error .mergeNull

/-- Execute the query for one row of `UNWIND $rows AS row`. -/
def processRow (secName : String) (subName : Option String) (g : Graph) (r : Row) :
    Except LoadErr Graph :=
  Except.map (runOps g) (rowOps secName subName r)

/-- Execute the query over all rows in order; the transaction fails when any
row fails. -/
def processRows (secName : String) (subName : Option String) : Graph → List Row →
    Except LoadErr Graph
  | g, [] => .ok g
  | g, r :: rs =>
    match processRow secName subName g r with
    | .error e => .error e
    | .ok g' => processRows secName subName g' rs

/-- The operation sequence of a whole table, or its first error. -/
def tableOps (secName : String) (subName : Option String) : List Row →
    Except LoadErr (List Op)
  | [] => .ok []
  | r :: rs =>
    match rowOps secName subName r with
    | .error e => .error e
    | .ok os =>
      match tableOps secName subName rs with
      | .error e => .error e
      | .ok rest => .ok (os ++ rest)

/-- `Neo4jLoader.load_dataframe` (source lines 103-140): escape the two names
(line 114-115: `str(x).replace("'", "\\'")` — note `str(None)` is the string
`"None"`), embed them as single-quoted literals in the query text (an error
when a fragment does not lex as one complete literal), emit the Sub_Sector
clauses only when the escaped sub-sector string is non-empty (the f-string
condition of line 128), and run the batch transaction over the rows. -/
def load_dataframe (rows : List Row) (sub_sector_name : Option String)
    (sector_name : String) (g : Graph) : Except LoadErr Graph :=
  let subS := escapeQ (pyStr sub_sector_name)
  let secS := escapeQ sector_name
  match parseLitBody secS.data, parseLitBody subS.data with
  | some secC, some subC =>
    processRows (String.mk secC) (if subS = "" then none else some (String.mk subC)) g rows
  | _, _ => .error .malformedQuery

/-- Python dict assignment `d[k] = v`: overwrite in place when the key
exists, append otherwise. -/
def dictUpdate : List (String × Option String) → String → Option String →
    List (String × Option String)
  | [], k, v => [(k, v)]
  | (k', v') :: tl, k, v =>
    if k' = k then (k, v) :: tl else (k', v') :: dictUpdate tl k v

/-- Python `d[k]` as an option: the value at the first matching key. -/
def dictFind? {β : Type} (d : List (String × β)) (k : String) : Option β :=
  Option.map Prod.snd (d.find? (fun p => decide (p.1 = k)))

/-- The loop body of `DataProcessor.generate_sector_dict` (lines 67-69):
`parts = key.split('_'); sector_dict[parts[0]] = parts[1] if len(parts) > 1
else None`. -/
def classifyStep (d : List (String × Option String)) (key : String) :
    List (String × Option String) :=
  let parts := pySplitUnderscore key
  dictUpdate d parts.headI parts[1]?

/-- `DataProcessor.generate_sector_dict`: fold the naming convention over the
loaded table names in order. -/
def generate_sector_dict (names : List String) : List (String × Option String) :=
  names.foldl classifyStep []

/-- Errors of the ingestion run: a `KeyError` on `processor.data_dict[...]`
or an error from `load_dataframe`. -/
inductive RunErr where
  | keyError (k : String)
  | loadErr (e : LoadErr)
deriving DecidableEq, Repr

/-- One iteration of the `__main__` loop (lines 172-178): when
`sector_dict[i]` is truthy, look up the table named `i + '_' + sector_dict[i]`
and call `load_dataframe(df, sub_sector_name=i, sector_name=sector_dict[i])`
— note the call site passes the sector key `i` as `sub_sector_name` and the
sub-sector value as `sector_name`; otherwise look up the table named `i` and
call `load_dataframe(df, sub_sector_name=None, sector_name=i)`. -/
def ingestEntry (dd : List (String × List Row)) (g : Graph) (i : String)
    (sub : Option String) : Except RunErr Graph :=
  if pyTruthy sub then
    match dictFind? dd (i ++ "_" ++ sub.getD "") with
    | none => .error (.keyError (i ++ "_" ++ sub.getD ""))
    | some df =>
      match load_dataframe df (some i) (sub.getD "") g with
      | .error e => .error (.loadErr e)
      | .ok g' => .ok g'
  else
    match dictFind? dd i with
    | none => .error (.keyError i)
    | some df =>
      match load_dataframe df none i g with
      | .error e => .error (.loadErr e)
      | .ok g' => .ok g'

/-- The `__main__` loop over the routing table: one table per entry, aborting
at the first error. -/
def ingestAll (dd : List (String × List Row)) :
    List (String × Option String) → Graph → Except RunErr Graph
  | [], g => .ok g
  | (i, sub) :: tl, g =>
    match ingestEntry dd g i sub with
    | .error e => .error e
    | .ok g' => ingestAll dd tl g'

/-- The Neo4j driver handle; `closeCalls` counts invocations of
`loader.close()`. -/
structure LoaderHandle where
  closeCalls : Nat
deriving DecidableEq, Repr

/-- `Neo4jLoader.close`. -/
def closeLoader (l : LoaderHandle) : LoaderHandle := { closeCalls := l.closeCalls + 1 }

/-- Python `try: body finally: cleanup`: the cleanup runs after the body,
whether the body returned or raised, and the body's outcome (value or
exception) is passed through unchanged. -/
def pyTryFinally {ε α σ : Type} (body : Except ε α) (cleanup : σ → σ) (s : σ) :
    Except ε α × σ :=
  (body, cleanup s)

/-- The ingestion run of `__main__` (lines 167-182), from a loaded
`data_dict` and an initial graph store state: build the routing table, open
the loader (zero close calls so far), run the per-table loop inside
`try`, and close the loader in `finally`. -/
def mainRun (dd : List (String × List Row)) (g : Graph) :
    Except RunErr Graph × LoaderHandle :=
  pyTryFinally (ingestAll dd (generate_sector_dict (dd.map Prod.fst)) g)
    closeLoader { closeCalls := 0 }

/-- An `Except` outcome is an error. -/
def erred {ε α : Type} : Except ε α → Bool
  | .error _ => true
  | .ok _ => false

/-! ### Concrete tables and runs used to instantiate the theorems -/

/-- A well-formed row in the shape the spec's §8 example uses. -/
def rowOhio : Row :=
  [("State", Val.str "OH"), ("Region", Val.str "NE"), ("County", Val.str "Cuyahoga"),
   ("county_id", Val.int 39035), ("Year", Val.int 2020), ("Employment", Val.int 2)]

/-- The same row with a different Employment value. -/
def rowOhio7 : Row :=
  [("State", Val.str "OH"), ("Region", Val.str "NE"), ("County", Val.str "Cuyahoga"),
   ("county_id", Val.int 39035), ("Year", Val.int 2020), ("Employment", Val.int 7)]

/-- The same row with a non-numeric Employment value. -/
def rowBad : Row :=
  [("State", Val.str "OH"), ("Region", Val.str "NE"), ("County", Val.str "Cuyahoga"),
   ("county_id", Val.int 39035), ("Year", Val.int 2020), ("Employment", Val.str "abc")]

/-- The same row with a Year value that `toInteger` cannot coerce. -/
def rowBadYear : Row :=
  [("State", Val.str "OH"), ("Region", Val.str "NE"), ("County", Val.str "Cuyahoga"),
   ("county_id", Val.int 39035), ("Year", Val.str "latest"), ("Employment", Val.int 2)]

/-- The store after one row of one table processed as sector Housing with the
placeholder sub-sector string the code produces for `None`. -/
def gOhio : Graph :=
  (processRow "Housing" (some "None") Graph.empty rowOhio).toOption.getD Graph.empty

/-- The store after loading the one-row Housing table into an empty store. -/
def gA : Graph :=
  (load_dataframe [rowOhio] none "Housing" Graph.empty).toOption.getD Graph.empty

/-- The store after re-upserting the same metric key with a different value. -/
def gB : Graph :=
  (load_dataframe [rowOhio7] none "Housing" gA).toOption.getD Graph.empty

/-- The store after loading a table whose metric value is not numeric. -/
def gBad : Graph :=
  (load_dataframe [rowBad] none "Housing" Graph.empty).toOption.getD Graph.empty

/-- The store produced by the full run on the table `Retail_Grocery`. -/
def gRetail : Graph :=
  ((mainRun [("Retail_Grocery", [rowOhio])] Graph.empty).1).toOption.getD Graph.empty

/-- The store produced by the full run on the table `Housing` (no sub-sector
in the naming convention). -/
def gHousing : Graph :=
  ((mainRun [("Housing", [rowOhio])] Graph.empty).1).toOption.getD Graph.empty

/-- A data source holding both a two-segment and a three-segment table name
with the same first two segments. -/
def ddPair : List (String × List Row) := [("A_B", []), ("A_B_C", [])]

/-- A data source holding only a three-segment table name. -/
def ddTriple : List (String × List Row) := [("A_B_C", [])]

/-! ### Store-operation lemmas: effects persist, are idempotent, and only add -/

theorem nodes_mono_applyOp (g : Graph) (op : Op) {a : GNode} (h : a ∈ g.nodes) :
    a ∈ (applyOp g op).nodes := by
  cases op <;>
    simp only [applyOp, Graph.upsertNode, Graph.upsertEdge, Graph.upsertMetric] <;>
    split <;> simp_all [List.mem_append]

theorem edges_mono_applyOp (g : Graph) (op : Op) {e : GEdge} (h : e ∈ g.edges) :
    e ∈ (applyOp g op).edges := by
  cases op <;>
    simp only [applyOp, Graph.upsertNode, Graph.upsertEdge, Graph.upsertMetric] <;>
    split <;> simp_all [List.mem_append]

theorem opDone_applyOp_self (g : Graph) (op : Op) : opDone (applyOp g op) op := by
  cases op <;>
    simp only [applyOp, opDone, Graph.upsertNode, Graph.upsertEdge, Graph.upsertMetric] <;>
    split <;> simp_all [List.mem_append]

theorem applyOp_of_done {g : Graph} {op : Op} (h : opDone g op) : applyOp g op = g := by
  cases op <;>
    simp_all only [applyOp, opDone, Graph.upsertNode, Graph.upsertEdge, Graph.upsertMetric,
      if_pos]

theorem opDone_mono {g : Graph} {op : Op} (op' : Op) (h : opDone g op) :
    opDone (applyOp g op') op := by
  cases op with
  | node n => exact nodes_mono_applyOp g op' h
  | edge e => exact edges_mono_applyOp g op' h
  | metric c y ct v => exact nodes_mono_applyOp g op' h

theorem opDone_runOps_of_done {op : Op} :
    ∀ (ops : List Op) (g : Graph), opDone g op → opDone (runOps g ops) op := by
  intro ops
  induction ops with
  | nil => intro g h; exact h
  | cons o rest ih => intro g h; exact ih (applyOp g o) (opDone_mono o h)

theorem runOps_establishes {op : Op} :
    ∀ (ops : List Op) (g : Graph), op ∈ ops → opDone (runOps g ops) op := by
  intro ops
  induction ops with
  | nil => intro g h; cases h
  | cons o rest ih =>
    intro g h
    rcases List.mem_cons.mp h with h1 | hmem
    · subst h1
      exact opDone_runOps_of_done rest (applyOp g op) (opDone_applyOp_self g op)
    · exact ih (applyOp g o) hmem

theorem runOps_noop : ∀ (ops : List Op) (g : Graph), (∀ op ∈ ops, opDone g op) →
    runOps g ops = g := by
  intro ops
  induction ops with
  | nil => intro g _; rfl
  | cons o rest ih =>
    intro g h
    have ho : applyOp g o = g := applyOp_of_done (h o (List.mem_cons_self o rest))
    show runOps (applyOp g o) rest = g
    rw [ho]
    exact ih g (fun op hop => h op (List.mem_cons_of_mem o hop))

theorem runOps_idem (g : Graph) (ops : List Op) :
    runOps (runOps g ops) ops = runOps g ops :=
  runOps_noop ops (runOps g ops) (fun _op hop => runOps_establishes ops g hop)

theorem runOps_append (g : Graph) (l₁ l₂ : List Op) :
    runOps g (l₁ ++ l₂) = runOps (runOps g l₁) l₂ :=
  List.foldl_append applyOp g l₁ l₂

/-! ### The transaction as one operation sequence -/

theorem processRows_eq_tableOps (secName : String) (subName : Option String) :
    ∀ (rows : List Row) (g : Graph),
      processRows secName subName g rows =
        Except.map (runOps g) (tableOps secName subName rows) := by
  intro rows
  induction rows with
  | nil => intro g; rfl
  | cons r rs ih =>
    intro g
    show (match processRow secName subName g r with
          | Except.error e => Except.error e
          | Except.ok g' => processRows secName subName g' rs) = _
    simp only [processRow]
    cases hro : rowOps secName subName r with
    | error e => simp [tableOps, hro, Except.map]
    | ok os =>
      simp only [Except.map, tableOps, hro]
      rw [ih (runOps g os)]
      cases ht : tableOps secName subName rs with
      | error e => simp [Except.map]
      | ok rest => simp [Except.map, runOps_append]

theorem metricValue_applyOp_some {g : Graph} {k : String × Int × Val} {v : Option ℚ}
    (op : Op) (h : metricValue g k = some v) : metricValue (applyOp g op) k = some v := by
  obtain ⟨p, hp, hv⟩ : ∃ p, g.metricVal.find? (fun p => decide (p.1 = k)) = some p ∧ p.2 = v := by
    unfold metricValue at h
    cases hf : g.metricVal.find? (fun p => decide (p.1 = k)) with
    | none => rw [hf] at h; simp at h
    | some p => rw [hf] at h; simp at h; exact ⟨p, rfl, h⟩
  cases op with
  | node n =>
    simp only [applyOp, Graph.upsertNode]
    split <;> simp [metricValue, hp, hv]
  | edge e =>
    simp only [applyOp, Graph.upsertEdge]
    split <;> simp [metricValue, hp, hv]
  | metric c y ct v' =>
    simp only [applyOp, Graph.upsertMetric]
    split
    · simp [metricValue, hp, hv]
    · simp [metricValue, List.find?_append, hp, hv]

theorem metricValue_runOps_some {k : String × Int × Val} {v : Option ℚ} :
    ∀ (ops : List Op) (g : Graph), metricValue g k = some v →
      metricValue (runOps g ops) k = some v := by
  intro ops
  induction ops with
  | nil => intro g h; exact h
  | cons o rest ih => intro g h; exact ih (applyOp g o) (metricValue_applyOp_some o h)

theorem load_dataframe_eq (rows : List Row) (sub : Option String) (sec : String) (g : Graph) :
    load_dataframe rows sub sec g =
      match parseLitBody (escapeQ sec).data, parseLitBody (escapeQ (pyStr sub)).data with
      | some secC, some subC =>
        processRows (String.mk secC)
          (if escapeQ (pyStr sub) = "" then none else some (String.mk subC)) g rows
      | _, _ => .error .malformedQuery := rfl

theorem load_dataframe_run (rows : List Row) (sub : Option String) (sec : String) :
    (∃ e, ∀ g, load_dataframe rows sub sec g = .error e) ∨
    (∃ ops, ∀ g, load_dataframe rows sub sec g = .ok (runOps g ops)) := by
  cases h1 : parseLitBody (escapeQ sec).data with
  | none =>
    exact .inl ⟨.malformedQuery, fun g => by simp only [load_dataframe_eq, h1]⟩
  | some secC =>
    cases h2 : parseLitBody (escapeQ (pyStr sub)).data with
    | none =>
      exact .inl ⟨.malformedQuery, fun g => by simp only [load_dataframe_eq, h1, h2]⟩
    | some subC =>
      cases ht : tableOps (String.mk secC)
          (if escapeQ (pyStr sub) = "" then none else some (String.mk subC)) rows with
      | error e =>
        refine .inl ⟨e, fun g => ?_⟩
        simp only [load_dataframe_eq, h1, h2]
        rw [processRows_eq_tableOps, ht]
        rfl
      | ok ops =>
        refine .inr ⟨ops, fun g => ?_⟩
        simp only [load_dataframe_eq, h1, h2]
        rw [processRows_eq_tableOps, ht]
        rfl

/-! ### C5 and C6: first-write-wins and idempotence of the upsert engine -/

/-- C5: for every Metric key, the value attribute set at the node's first
creation is never overwritten by any later upsert of the same key — any
successful `load_dataframe` transaction leaves every existing Metric value
unchanged, whatever values its rows carry. -/
theorem metric_first_write_wins (rows : List Row) (sub : Option String) (sec : String)
    (g g' : Graph) (k : String × Int × Val) (v : Option ℚ)
    (hv : metricValue g k = some v) (h : load_dataframe rows sub sec g = .ok g') :
    metricValue g' k = some v := by
  rcases load_dataframe_run rows sub sec with ⟨e, he⟩ | ⟨ops, hok⟩
  · rw [he g] at h; cases h
  · rw [hok g] at h
    injection h with h'
    rw [← h']
    exact metricValue_runOps_some ops g hv

/-- C5 witness: create Metric (Employment, 2020, Cuyahoga) with value 2, then
upsert the same key with value 7; the value 2 survives. -/
theorem metric_first_write_wins_witness :
    metricValue gB ("Employment", 2020, Val.str "Cuyahoga") = some (some 2) := by
  have hv : metricValue gA ("Employment", 2020, Val.str "Cuyahoga") = some (some 2) := by decide
  have h : load_dataframe [rowOhio7] none "Housing" gA = .ok gB := by decide
  exact metric_first_write_wins [rowOhio7] none "Housing" gA gB
    ("Employment", 2020, Val.str "Cuyahoga") (some 2) hv h

/-- C6: the upsert engine is idempotent — when a table transaction succeeds
from store `g` producing `g₁`, running the identical transaction again from
`g₁` succeeds and returns exactly `g₁`: no node, edge or metric value
changes on the second run. -/
theorem load_idempotent (rows : List Row) (sub : Option String) (sec : String)
    (g g₁ : Graph) (h : load_dataframe rows sub sec g = .ok g₁) :
    load_dataframe rows sub sec g₁ = .ok g₁ := by
  rcases load_dataframe_run rows sub sec with ⟨e, he⟩ | ⟨ops, hok⟩
  · rw [he g] at h; cases h
  · rw [hok g] at h
    injection h with h'
    rw [hok g₁, ← h', runOps_idem]

/-- C6 witness: re-loading the one-row Housing table returns the same store. -/
theorem load_idempotent_witness : load_dataframe [rowOhio] none "Housing" gA = .ok gA := by
  have h : load_dataframe [rowOhio] none "Housing" Graph.empty = .ok gA := by decide
  exact load_idempotent [rowOhio] none "Housing" Graph.empty gA h

/-! ### Which operations create which Metrics nodes -/

theorem metric_mem_applyOp (g : Graph) (op : Op) (c : String) (y : Int) (ct : Val) :
    GNode.metric c y ct ∈ (applyOp g op).nodes ↔
      GNode.metric c y ct ∈ g.nodes ∨ opCreatesMetric c y ct op := by
  cases op with
  | node n =>
    simp only [applyOp, Graph.upsertNode, opCreatesMetric]
    split
    · rename_i hn
      constructor
      · exact fun h => .inl h
      · rintro (h | rfl)
        · exact h
        · exact hn
    · simp [List.mem_append, eq_comm]
  | edge e =>
    simp only [applyOp, Graph.upsertEdge, opCreatesMetric]
    split <;> simp
  | metric c' y' ct' v' =>
    simp only [applyOp, Graph.upsertMetric, opCreatesMetric]
    split
    · rename_i hn
      constructor
      · exact fun h => .inl h
      · rintro (h | ⟨rfl, rfl, rfl⟩)
        · exact h
        · exact hn
    · simp only [List.mem_append, List.mem_singleton, GNode.metric.injEq]
      constructor
      · rintro (h | ⟨rfl, rfl, rfl⟩)
        · exact .inl h
        · exact .inr ⟨rfl, rfl, rfl⟩
      · rintro (h | ⟨rfl, rfl, rfl⟩)
        · exact .inl h
        · exact .inr ⟨rfl, rfl, rfl⟩

theorem metric_mem_runOps (c : String) (y : Int) (ct : Val) :
    ∀ (ops : List Op) (g : Graph),
      GNode.metric c y ct ∈ (runOps g ops).nodes ↔
        GNode.metric c y ct ∈ g.nodes ∨ ∃ op ∈ ops, opCreatesMetric c y ct op := by
  intro ops
  induction ops with
  | nil => intro g; simp [runOps]
  | cons o rest ih =>
    intro g
    show GNode.metric c y ct ∈ (runOps (applyOp g o) rest).nodes ↔ _
    rw [ih, metric_mem_applyOp]
    simp only [List.exists_mem_cons_iff]
    tauto

theorem nodes_nodup_applyOp (g : Graph) (op : Op) (h : g.nodes.Nodup) :
    (applyOp g op).nodes.Nodup := by
  cases op <;> simp only [applyOp, Graph.upsertNode, Graph.upsertEdge, Graph.upsertMetric] <;>
    split <;>
    simp_all [List.nodup_append, List.disjoint_singleton]

theorem nodes_nodup_runOps : ∀ (ops : List Op) (g : Graph), g.nodes.Nodup →
    (runOps g ops).nodes.Nodup := by
  intro ops
  induction ops with
  | nil => intro g h; exact h
  | cons o rest ih => intro g h; exact ih (applyOp g o) (nodes_nodup_applyOp g o h)

theorem rowOps_ok (secName : String) (subName : Option String) (r : Row) (ops : List Op)
    (h : rowOps secName subName r = .ok ops) :
    rowGuard r = true ∧ ∃ ms, metricOpsAll (anchorOf subName) r (metricCols r) = .ok ms ∧
      ops = hierOps secName subName r ++ ms := by
  unfold rowOps at h
  split at h
  · cases hm : metricOpsAll (anchorOf subName) r (metricCols r) with
    | error e => rw [hm] at h; cases h
    | ok ms =>
      rw [hm] at h
      injection h with h'
      exact ⟨by assumption, ms, rfl, h'.symm⟩
  · cases h

theorem metricOpsAll_nil_ok (anchor : Option GNode) (r : Row) (ms : List Op)
    (h : metricOpsAll anchor r [] = .ok ms) : ms = [] := by
  unfold metricOpsAll at h
  injection h with h'
  exact h'.symm

theorem metricOpsAll_cons_ok (anchor : Option GNode) (r : Row) (c₀ : String) (cs : List String)
    (ms : List Op) (h : metricOpsAll anchor r (c₀ :: cs) = .ok ms) :
    ∃ y₀ a rest, toIntegerV (rowGet r "Year") = some y₀ ∧ anchor = some a ∧
      metricOpsAll anchor r cs = .ok rest ∧
      ms = Op.metric c₀ y₀ (rowGet r "County") (toFloatV (rowGet r c₀)) ::
           Op.edge ⟨a, "REPORTS", GNode.metric c₀ y₀ (rowGet r "County")⟩ :: rest := by
  unfold metricOpsAll metricOps at h
  cases hy : toIntegerV (rowGet r "Year") with
  | none => rw [hy] at h; cases h
  | some y₀ =>
    rw [hy] at h
    cases anchor with
    | none => cases h
    | some a =>
      cases hrest : metricOpsAll (some a) r cs with
      | error e =>
        rw [hrest] at h
        exact absurd h (by simp)
      | ok rest =>
        rw [hrest] at h
        injection h with h'
        exact ⟨y₀, a, rest, rfl, rfl, rfl, h'.symm⟩

theorem metricOpsAll_creates_iff (r : Row) (c : String) (y : Int) (ct : Val) :
    ∀ (cols : List String) (anchor : Option GNode) (ms : List Op),
      metricOpsAll anchor r cols = .ok ms →
      ((∃ op ∈ ms, opCreatesMetric c y ct op) ↔
        (c ∈ cols ∧ toIntegerV (rowGet r "Year") = some y ∧ ct = rowGet r "County")) := by
  intro cols
  induction cols with
  | nil =>
    intro anchor ms h
    have hms := metricOpsAll_nil_ok anchor r ms h
    subst hms
    simp
  | cons c₀ cs ih =>
    intro anchor ms h
    obtain ⟨y₀, a, rest, hy, ha, hrest, hms⟩ := metricOpsAll_cons_ok anchor r c₀ cs ms h
    subst hms
    subst ha
    have ihr := ih (some a) rest hrest
    constructor
    · rintro ⟨op, hop, hcr⟩
      rcases List.mem_cons.mp hop with h1 | hop1
      · subst h1
        obtain ⟨rfl, rfl, rfl⟩ := hcr
        exact ⟨List.mem_cons_self c₀ cs, hy, rfl⟩
      · rcases List.mem_cons.mp hop1 with h2 | hop2
        · subst h2
          exact absurd hcr (by simp [opCreatesMetric])
        · obtain ⟨hmem, hy', hct⟩ := ihr.mp ⟨op, hop2, hcr⟩
          exact ⟨List.mem_cons_of_mem c₀ hmem, hy', hct⟩
    · rintro ⟨hcmem, hy', hct⟩
      rcases List.mem_cons.mp hcmem with h1 | h2
      · subst h1
        refine ⟨Op.metric c y₀ (rowGet r "County") (toFloatV (rowGet r c)),
          List.mem_cons_self _ _, ?_⟩
        have hy0 : y₀ = y := by
          rw [hy] at hy'
          injection hy'
        exact ⟨rfl, hy0, hct.symm⟩
      · obtain ⟨op, hop, hcr⟩ := ihr.mpr ⟨h2, hy', hct⟩
        exact ⟨op, List.mem_cons_of_mem _ (List.mem_cons_of_mem _ hop), hcr⟩

theorem hierOps_shape (secName : String) (subName : Option String) (r : Row) :
    ∀ op ∈ hierOps secName subName r,
      (∃ n, op = Op.node n ∧ ∀ c y ct, n ≠ GNode.metric c y ct) ∨ (∃ e, op = Op.edge e) := by
  intro op hop
  cases subName with
  | none =>
    simp only [hierOps, List.append_nil, List.mem_cons, List.not_mem_nil, or_false] at hop
    rcases hop with rfl | rfl | rfl | rfl | rfl | rfl | rfl <;>
      first
        | exact .inl ⟨_, rfl, fun c y ct => by simp⟩
        | exact .inr ⟨_, rfl⟩
  | some s =>
    simp only [hierOps, List.mem_append, List.mem_cons, List.not_mem_nil, or_false] at hop
    rcases hop with (rfl | rfl | rfl | rfl | rfl | rfl | rfl) | (rfl | rfl) <;>
      first
        | exact .inl ⟨_, rfl, fun c y ct => by simp⟩
        | exact .inr ⟨_, rfl⟩

theorem hierOps_not_creates (secName : String) (subName : Option String) (r : Row)
    (c : String) (y : Int) (ct : Val) :
    ∀ op ∈ hierOps secName subName r, ¬ opCreatesMetric c y ct op := by
  intro op hop
  rcases hierOps_shape secName subName r op hop with ⟨n, rfl, hn⟩ | ⟨e, rfl⟩
  · exact fun hcr => hn c y ct hcr
  · exact fun hcr => hcr

theorem mem_metricCols (r : Row) (c : String) :
    c ∈ metricCols r ↔ c ∈ rowKeys r ∧ ¬ c ∈ reservedCols := by
  simp [metricCols, List.mem_filter]

/-! ### C4: the reserved-column exclusion set -/

/-- C4: in a successful row transaction, the Metrics nodes present afterwards
are exactly those already present plus one node `(c, toInteger(Year), County)`
for each column `c` of the row outside the literal exclusion set
`['State', 'Region', 'County', 'Year']` — so `county_id`, being outside that
set, yields a Metric, and no reserved column ever does; together with
preservation of node distinctness this makes the creation exactly-once. -/
theorem metric_column_exclusion (sec : String) (sub : Option String) (g g' : Graph) (r : Row)
    (h : processRow sec sub g r = .ok g') (hnd : g.nodes.Nodup) :
    g'.nodes.Nodup ∧
    ∀ c y ct, GNode.metric c y ct ∈ g'.nodes ↔
      (GNode.metric c y ct ∈ g.nodes ∨
        (c ∈ rowKeys r ∧ ¬ c ∈ (["State", "Region", "County", "Year"] : List String) ∧
          toIntegerV (rowGet r "Year") = some y ∧ ct = rowGet r "County")) := by
  cases hro : rowOps sec sub r with
  | error e =>
    rw [processRow, hro] at h
    exact absurd h (by simp [Except.map])
  | ok ops =>
    rw [processRow, hro] at h
    simp only [Except.map] at h
    injection h with h'
    subst h'
    obtain ⟨hguard, ms, hms, hops⟩ := rowOps_ok sec sub r ops hro
    subst hops
    refine ⟨nodes_nodup_runOps _ g hnd, fun c y ct => ?_⟩
    rw [metric_mem_runOps]
    have hhier := hierOps_not_creates sec sub r c y ct
    have hiff := metricOpsAll_creates_iff r c y ct (metricCols r) (anchorOf sub) ms hms
    constructor
    · rintro (hmem | ⟨op, hop, hcr⟩)
      · exact .inl hmem
      · rcases List.mem_append.mp hop with h1 | h2
        · exact absurd hcr (hhier op h1)
        · obtain ⟨hc, hy, hct⟩ := hiff.mp ⟨op, h2, hcr⟩
          obtain ⟨hk, hr⟩ := (mem_metricCols r c).mp hc
          exact .inr ⟨hk, hr, hy, hct⟩
    · rintro (hmem | ⟨hk, hr, hy, hct⟩)
      · exact .inl hmem
      · obtain ⟨op, hop, hcr⟩ := hiff.mpr ⟨(mem_metricCols r c).mpr ⟨hk, hr⟩, hy, hct⟩
        exact .inr ⟨op, List.mem_append.mpr (.inr hop), hcr⟩

/-- C4 witness: on the spec's example row, `county_id` produces a Metric node
while the reserved column `State` does not, and the resulting node list is
duplicate-free. -/
theorem metric_column_exclusion_witness :
    GNode.metric "county_id" 2020 (Val.str "Cuyahoga") ∈ gOhio.nodes ∧
    ¬ GNode.metric "State" 2020 (Val.str "Cuyahoga") ∈ gOhio.nodes ∧
    gOhio.nodes.Nodup := by
  have h : processRow "Housing" (some "None") Graph.empty rowOhio = .ok gOhio := by decide
  have main := metric_column_exclusion "Housing" (some "None") Graph.empty gOhio rowOhio h
    (by decide)
  refine ⟨?_, ?_, main.1⟩
  · exact (main.2 "county_id" 2020 (Val.str "Cuyahoga")).mpr (.inr (by decide))
  · intro hmem
    have hc := (main.2 "State" 2020 (Val.str "Cuyahoga")).mp hmem
    revert hc
    decide

/-! ### C8: coercion-failure semantics -/

theorem metricVal_find_none {g : Graph} {k : String × Int × Val}
    (h : metricValue g k = none) :
    g.metricVal.find? (fun p => decide (p.1 = k)) = none := by
  unfold metricValue at h
  cases hf : g.metricVal.find? (fun p => decide (p.1 = k)) with
  | none => rfl
  | some p => rw [hf] at h; cases h

theorem metricValue_none_applyOp (c : String) (y : Int) (ct : Val) (op : Op) (g : Graph)
    (h : metricValue g (c, y, ct) = none) (hnc : ¬ opCreatesMetric c y ct op) :
    metricValue (applyOp g op) (c, y, ct) = none := by
  have hfind := metricVal_find_none h
  cases op with
  | node n =>
    simp only [applyOp, Graph.upsertNode]
    split <;> simp [metricValue, hfind]
  | edge e =>
    simp only [applyOp, Graph.upsertEdge]
    split <;> simp [metricValue, hfind]
  | metric c' y' ct' v' =>
    simp only [applyOp, Graph.upsertMetric]
    split
    · simp [metricValue, hfind]
    · have hk : ¬ ((c', y', ct') : String × Int × Val) = (c, y, ct) := by
        intro hkk
        apply hnc
        simp only [Prod.mk.injEq] at hkk
        exact ⟨hkk.1, hkk.2.1, hkk.2.2⟩
      simp [metricValue, List.find?_append, hfind, List.find?, hk]

theorem metricValue_applyOp_create (c : String) (y : Int) (ct : Val) (v : Option ℚ) (g : Graph)
    (hnm : ¬ GNode.metric c y ct ∈ g.nodes)
    (hnone : metricValue g (c, y, ct) = none) :
    metricValue (applyOp g (Op.metric c y ct v)) (c, y, ct) = some v := by
  have hfind := metricVal_find_none hnone
  simp only [applyOp, Graph.upsertMetric, if_neg hnm]
  simp [metricValue, List.find?_append, hfind, List.find?]

theorem metricValue_runOps_creates (c : String) (y : Int) (ct : Val) :
    ∀ (ops : List Op) (g : Graph),
      ¬ GNode.metric c y ct ∈ g.nodes →
      metricValue g (c, y, ct) = none →
      (∀ op ∈ ops, opSafeFor c y ct op) →
      (∃ op ∈ ops, opCreatesMetric c y ct op) →
      metricValue (runOps g ops) (c, y, ct) = some none := by
  intro ops
  induction ops with
  | nil =>
    intro g _ _ _ hex
    simp at hex
  | cons o rest ih =>
    intro g hnm hnone hsafe hex
    by_cases hc : opCreatesMetric c y ct o
    · have hval : metricValue (applyOp g o) (c, y, ct) = some none := by
        cases o with
        | node n => exact absurd hc (hsafe (Op.node n) (List.mem_cons_self _ _))
        | edge e => exact hc.elim
        | metric c' y' ct' v' =>
          obtain ⟨rfl, rfl, rfl⟩ := hc
          have hv : v' = none := hsafe (Op.metric c' y' ct' v') (List.mem_cons_self _ _) ⟨rfl, rfl, rfl⟩
          subst hv
          exact metricValue_applyOp_create c' y' ct' none g hnm hnone
      exact metricValue_runOps_some rest (applyOp g o) hval
    · have hex' : ∃ op ∈ rest, opCreatesMetric c y ct op := by
        obtain ⟨op, hop, hcr⟩ := hex
        rcases List.mem_cons.mp hop with h1 | h2
        · subst h1; exact absurd hcr hc
        · exact ⟨op, h2, hcr⟩
      have hnm' : ¬ GNode.metric c y ct ∈ (applyOp g o).nodes := by
        rw [metric_mem_applyOp]
        rintro (hmem | hcr)
        · exact hnm hmem
        · exact hc hcr
      exact ih (applyOp g o) hnm' (metricValue_none_applyOp c y ct o g hnone hc)
        (fun op hop => hsafe op (List.mem_cons_of_mem o hop)) hex'

theorem metricVal_unchanged_nodeEdge :
    ∀ (ops : List Op),
      (∀ op ∈ ops, (∃ n, op = Op.node n ∧ ∀ c y ct, n ≠ GNode.metric c y ct) ∨
        (∃ e, op = Op.edge e)) →
      ∀ (c : String) (y : Int) (ct : Val) (g : Graph),
        metricValue g (c, y, ct) = none →
        metricValue (runOps g ops) (c, y, ct) = none := by
  intro ops
  induction ops with
  | nil => intro _ c y ct g h; exact h
  | cons o rest ih =>
    intro hsh c y ct g h
    have hnc : ¬ opCreatesMetric c y ct o := by
      rcases hsh o (List.mem_cons_self _ _) with ⟨n, rfl, hn⟩ | ⟨e, rfl⟩
      · exact fun hcr => hn c y ct hcr
      · exact fun hcr => hcr
    exact ih (fun op hop => hsh op (List.mem_cons_of_mem o hop)) c y ct (applyOp g o)
      (metricValue_none_applyOp c y ct o g h hnc)

theorem metricOpsAll_safe (r : Row) (c : String) (y : Int) (ct : Val)
    (hf : toFloatV (rowGet r c) = none) :
    ∀ (cols : List String) (anchor : Option GNode) (ms : List Op),
      metricOpsAll anchor r cols = .ok ms → ∀ op ∈ ms, opSafeFor c y ct op := by
  intro cols
  induction cols with
  | nil =>
    intro anchor ms h op hop
    rw [metricOpsAll_nil_ok anchor r ms h] at hop
    cases hop
  | cons c₀ cs ih =>
    intro anchor ms h op hop
    obtain ⟨y₀, a, rest, hy, ha, hrest, hms⟩ := metricOpsAll_cons_ok anchor r c₀ cs ms h
    subst hms
    subst ha
    rcases List.mem_cons.mp hop with h1 | hop1
    · subst h1
      rintro ⟨rfl, rfl, rfl⟩
      exact hf
    · rcases List.mem_cons.mp hop1 with h2 | hop2
      · subst h2
        trivial
      · exact ih (some a) rest hrest op hop2

/-- C8 counterexample: the claim says a metric value that cannot be converted
to floating point is fatal to the transaction; on a row whose Employment
value is the string abc the transaction instead succeeds and the Metric node
is created with no value attribute (`toFloat` yields null and the
`ON CREATE SET` sets nothing). -/
theorem metric_coercion_not_fatal :
    (load_dataframe [rowBad] none "Housing" Graph.empty).toOption = some gBad ∧
    metricValue gBad ("Employment", 2020, Val.str "Cuyahoga") = some none := by
  constructor
  · decide
  · decide

/-- C8 (amended): a Year value `toInteger` cannot coerce is fatal to the
transaction whenever the row has at least one non-reserved column (the
Metrics `MERGE` would use a null key property); a metric column value
`toFloat` cannot coerce is NOT fatal — the transaction succeeds and the
Metric node is created with its value attribute unset. -/
theorem coercion_failure_semantics (sec : String) (sub : Option String) (r : Row)
    (g g' : Graph) (c : String) (y : Int) :
    (rowGuard r = true → toIntegerV (rowGet r "Year") = none → metricCols r ≠ [] →
      processRow sec sub g r = .error LoadErr.mergeNull) ∧
    (processRow sec sub g r = .ok g' → c ∈ metricCols r →
      toIntegerV (rowGet r "Year") = some y → toFloatV (rowGet r c) = none →
      ¬ GNode.metric c y (rowGet r "County") ∈ g.nodes →
      metricValue g (c, y, rowGet r "County") = none →
      metricValue g' (c, y, rowGet r "County") = some none) := by
  constructor
  · intro hguard hy hcols
    rw [processRow]
    suffices hro : rowOps sec sub r = .error LoadErr.mergeNull by rw [hro]; rfl
    unfold rowOps
    rw [if_pos hguard]
    cases hmc : metricCols r with
    | nil => exact absurd hmc hcols
    | cons c₀ cs =>
      have hops : metricOps (anchorOf sub) r c₀ = .error LoadErr.mergeNull := by
        unfold metricOps
        rw [hy]
      unfold metricOpsAll
      rw [hops]
  · intro h hc hy hf hnm hnone
    cases hro : rowOps sec sub r with
    | error e =>
      rw [processRow, hro] at h
      exact absurd h (by simp [Except.map])
    | ok ops =>
      rw [processRow, hro] at h
      simp only [Except.map] at h
      injection h with h'
      subst h'
      obtain ⟨hguard, ms, hms, hops⟩ := rowOps_ok sec sub r ops hro
      subst hops
      rw [runOps_append]
      have hshape := hierOps_shape sec sub r
      have hnone1 : metricValue (runOps g (hierOps sec sub r)) (c, y, rowGet r "County") = none :=
        metricVal_unchanged_nodeEdge (hierOps sec sub r) hshape c y (rowGet r "County") g hnone
      have hnm1 : ¬ GNode.metric c y (rowGet r "County") ∈
          (runOps g (hierOps sec sub r)).nodes := by
        rw [metric_mem_runOps]
        rintro (hmem | ⟨op, hop, hcr⟩)
        · exact hnm hmem
        · exact hierOps_not_creates sec sub r c y (rowGet r "County") op hop hcr
      have hsafe := metricOpsAll_safe r c y (rowGet r "County") hf (metricCols r)
        (anchorOf sub) ms hms
      have hex := (metricOpsAll_creates_iff r c y (rowGet r "County") (metricCols r)
        (anchorOf sub) ms hms).mpr ⟨hc, hy, rfl⟩
      exact metricValue_runOps_creates c y (rowGet r "County") ms
        (runOps g (hierOps sec sub r)) hnm1 hnone1 hsafe hex

/-- C8 witness: a row with Year the string latest fails the transaction, and
a row with Employment the string abc succeeds leaving the Metric valueless. -/
theorem coercion_failure_semantics_witness :
    processRow "Housing" (some "None") Graph.empty rowBadYear = .error LoadErr.mergeNull ∧
    metricValue gBad ("Employment", 2020, Val.str "Cuyahoga") = some none := by
  constructor
  · exact (coercion_failure_semantics "Housing" (some "None") rowBadYear Graph.empty
      Graph.empty "Employment" 2020).1 (by decide) (by decide) (by decide)
  · have h : processRow "Housing" (some "None") Graph.empty rowBad = .ok gBad := by decide
    have hres := (coercion_failure_semantics "Housing" (some "None") rowBad Graph.empty
      gBad "Employment" 2020).2 h (by decide) (by decide) (by decide) (by decide) (by decide)
    exact hres

/-! ### C7: identifier escaping and query-text integrity -/

theorem string_mk_data (s : String) : String.mk s.data = s := rfl

theorem escChars_no_backslash :
    ∀ (cs : List Char), ¬ '\\' ∈ cs → parseLitBody (escChars cs) = some cs := by
  intro cs
  induction cs with
  | nil => intro _; rfl
  | cons c rest ih =>
    intro h
    have hc : ¬ c = '\\' := fun hh => h (hh ▸ List.mem_cons_self c rest)
    have hr : ¬ '\\' ∈ rest := fun hh => h (List.mem_cons_of_mem c hh)
    have ihr := ih hr
    by_cases hq : c = '\''
    · subst hq
      simp [escChars, parseLitBody, ihr]
    · rw [show escChars (c :: rest) = c :: escChars rest from by simp [escChars, hq]]
      rw [parseLitBody.eq_def]
      simp [hc, hq, ihr]

theorem escChars_ne_nil (c : Char) (rest : List Char) : escChars (c :: rest) ≠ [] := by
  by_cases hq : c = '\'' <;> simp [escChars, hq]

theorem escapeQ_ne_empty {s : String} (h : s ≠ "") : escapeQ s ≠ "" := by
  intro hq
  apply h
  obtain ⟨l⟩ := s
  cases l with
  | nil => rfl
  | cons c rest => exact absurd (congrArg String.data hq) (escChars_ne_nil c rest)

theorem load_dataframe_clean_sub (s sec : String)
    (hsub : parseLitBody ((escapeQ s).data) = some s.data)
    (hsec : parseLitBody ((escapeQ sec).data) = some sec.data)
    (hne : escapeQ s ≠ "") :
    ∀ (rows : List Row) (g : Graph),
      load_dataframe rows (some s) sec g = processRows sec (some s) g rows := by
  intro rows g
  rw [load_dataframe_eq]
  show (match parseLitBody (escapeQ sec).data, parseLitBody (escapeQ (pyStr (some s))).data with
        | some secC, some subC => processRows (String.mk secC)
            (if escapeQ (pyStr (some s)) = "" then none else some (String.mk subC)) g rows
        | _, _ => Except.error LoadErr.malformedQuery) = _
  rw [show pyStr (some s) = s from rfl, hsec, hsub]
  simp only [if_neg hne]

/-- C7 counterexample: the claim quantifies over every sector id string, but
for a sector id holding a backslash (here the two-character string a-backslash,
which contains no quote at all) the `replace`-based escaping leaves the
backslash in place, the embedded literal swallows the closing quote, the
query text no longer lexes, and the transaction fails — the constructed
upsert query's structure IS corrupted. -/
theorem escape_backslash_corruption :
    load_dataframe [] none "a\\" Graph.empty = .error LoadErr.malformedQuery ∧
    parseLitBody ((escapeQ "a\\").data) = none := by
  constructor <;> decide

/-- C7 (amended): for every sector or sub-sector id containing no backslash —
in particular ids containing quote characters — the `replace("'", "\\'")`
escaping neutralizes the quotes: the embedded fragment lexes as one complete
single-quoted literal whose content is exactly the original id, and the
engine proceeds with the node key being exactly that id (row values are
passed to the transaction separately as the `$rows` parameter, never
embedded in the query text). -/
theorem escape_quote_roundtrip (s : String) (hs : ¬ '\\' ∈ s.data) :
    parseLitBody ((escapeQ s).data) = some s.data ∧
    (s ≠ "" → ∀ (rows : List Row) (g : Graph),
      load_dataframe rows (some s) "Retail" g = processRows "Retail" (some s) g rows) := by
  have hround : parseLitBody ((escapeQ s).data) = some s.data :=
    escChars_no_backslash s.data hs
  refine ⟨hround, fun hne rows g => ?_⟩
  exact load_dataframe_clean_sub s "Retail" hround (by decide) (escapeQ_ne_empty hne) rows g

/-- C7 witness: the id Retail with an apostrophe survives the round trip and
the engine runs with exactly that sub-sector key. -/
theorem escape_quote_roundtrip_witness :
    parseLitBody ((escapeQ "Retail's").data) = some "Retail's".data ∧
    load_dataframe [] (some "Retail's") "Retail" Graph.empty =
      processRows "Retail" (some "Retail's") Graph.empty [] := by
  have h := escape_quote_roundtrip "Retail's" (by decide)
  exact ⟨h.1, h.2 (by decide) [] Graph.empty⟩

/-! ### C3: the table classifier -/

theorem find?_append_of_some {α : Type} {p : α → Bool} {l₁ : List α} {a : α}
    (l₂ : List α) (h : l₁.find? p = some a) : (l₁ ++ l₂).find? p = some a := by
  rw [List.find?_append, h]
  rfl

theorem find?_append_of_none {α : Type} {p : α → Bool} {l₁ : List α}
    (l₂ : List α) (h : l₁.find? p = none) : (l₁ ++ l₂).find? p = l₂.find? p := by
  rw [List.find?_append, h]
  rfl

theorem dictFind?_update (k : String) (v : Option String) :
    ∀ (d : List (String × Option String)) (k' : String),
      dictFind? (dictUpdate d k v) k' = if k' = k then some v else dictFind? d k' := by
  intro d
  induction d with
  | nil =>
    intro k'
    by_cases h : k' = k
    · subst h
      simp [dictUpdate, dictFind?, List.find?]
    · simp [dictUpdate, dictFind?, List.find?, h, Ne.symm h]
  | cons p tl ih =>
    intro k'
    obtain ⟨a, b⟩ := p
    by_cases hak : a = k
    · subst hak
      simp only [dictUpdate, if_pos rfl]
      by_cases h : k' = a
      · subst h
        simp [dictFind?, List.find?]
      · simp [dictFind?, List.find?, h, Ne.symm h]
    · simp only [dictUpdate, if_neg hak]
      by_cases h : k' = a
      · subst h
        simp [dictFind?, List.find?, hak]
      · have hhead : ∀ (rest : List (String × Option String)),
            dictFind? ((a, b) :: rest) k' = dictFind? rest k' := fun rest => by
          simp [dictFind?, List.find?, Ne.symm h]
        rw [hhead (dictUpdate tl k v), hhead tl]
        exact ih k'

theorem sector_dict_find (k : String) :
    ∀ (names : List String) (d : List (String × Option String)),
      dictFind? (names.foldl classifyStep d) k =
        match names.reverse.find? (fun n => decide ((pySplitUnderscore n).headI = k)) with
        | some n => some (pySplitUnderscore n)[1]?
        | none => dictFind? d k := by
  intro names
  induction names with
  | nil => intro d; rfl
  | cons n t ih =>
    intro d
    show dictFind? (t.foldl classifyStep (classifyStep d n)) k = _
    rw [ih (classifyStep d n), List.reverse_cons]
    cases hf : t.reverse.find? (fun n => decide ((pySplitUnderscore n).headI = k)) with
    | some m =>
      rw [find?_append_of_some [n] hf]
    | none =>
      rw [find?_append_of_none [n] hf]
      by_cases hk : (pySplitUnderscore n).headI = k
      · have hsing : List.find? (fun n => decide ((pySplitUnderscore n).headI = k)) [n]
            = some n := by
          simp [List.find?, hk]
        rw [hsing]
        show dictFind? (classifyStep d n) k = _
        simp only [classifyStep]
        rw [dictFind?_update]
        rw [if_pos hk.symm]
      · have hsing : List.find? (fun n => decide ((pySplitUnderscore n).headI = k)) [n]
            = none := by
          simp [List.find?, hk]
        rw [hsing]
        show dictFind? (classifyStep d n) k = dictFind? d k
        simp only [classifyStep]
        rw [dictFind?_update]
        rw [if_neg (fun hh => hk hh.symm)]

/-- C3: the table classifier maps each name's first underscore-separated
segment to its second segment when one exists and to none otherwise, ignoring
any further segments; on a repeated first segment the latest name in
iteration order wins (the characterization through find-last over the
reversed name list), and the spec's concrete examples hold, including the
routing table for Retail_Grocery and Housing. -/
theorem classifier_routing_correct :
    (∀ (names : List String) (k : String),
      dictFind? (generate_sector_dict names) k =
        match names.reverse.find? (fun n => decide ((pySplitUnderscore n).headI = k)) with
        | some n => some (pySplitUnderscore n)[1]?
        | none => none) ∧
    generate_sector_dict ["Retail_Grocery", "Housing"] =
      [("Retail", some "Grocery"), ("Housing", none)] ∧
    generate_sector_dict ["A_B_C"] = [("A", some "B")] ∧
    generate_sector_dict ["Retail_Grocery", "Retail_Apparel"] =
      [("Retail", some "Apparel")] := by
  refine ⟨fun names k => ?_, by decide, by decide, by decide⟩
  rw [show generate_sector_dict names = names.foldl classifyStep [] from rfl]
  rw [sector_dict_find k names []]
  cases names.reverse.find? (fun n => decide ((pySplitUnderscore n).headI = k)) <;> rfl

/-! ### C9: connection release discipline -/

/-- C9: on every execution path of the ingestion run, the driver handle
opened at startup is closed exactly once by the `finally` block — whether
the per-table loop returned or raised — and the loop's outcome, error
included, passes through to the caller unchanged (nothing is caught). -/
theorem connection_release_discipline (dd : List (String × List Row)) (g : Graph) :
    (mainRun dd g).2.closeCalls = 1 ∧
    (mainRun dd g).1 = ingestAll dd (generate_sector_dict (dd.map Prod.fst)) g :=
  ⟨rfl, rfl⟩

/-! ### C10: three-segment table names -/

theorem dictFind?_mem {β : Type} {d : List (String × β)} {k : String} {v : β}
    (h : dictFind? d k = some v) : (k, v) ∈ d := by
  unfold dictFind? at h
  cases hf : d.find? (fun p => decide (p.1 = k)) with
  | none => rw [hf] at h; cases h
  | some p =>
    rw [hf] at h
    simp only [Option.map_some'] at h
    have hp := List.find?_some hf
    have hmem := List.mem_of_find?_eq_some hf
    simp only [decide_eq_true_eq] at hp
    obtain ⟨a, b⟩ := p
    injection h with hv
    subst hv
    cases hp
    exact hmem

theorem ingestEntry_keyError (dd : List (String × List Row)) (g : Graph) (i s : String)
    (hs : s ≠ "") (hlook : dictFind? dd (i ++ "_" ++ s) = none) :
    ingestEntry dd g i (some s) = .error (.keyError (i ++ "_" ++ s)) := by
  unfold ingestEntry
  rw [show pyTruthy (some s) = true from by simp [pyTruthy, hs], if_pos rfl]
  simp only [Option.getD_some]
  rw [hlook]

theorem ingestAll_entry_fails (dd : List (String × List Row)) (i s : String)
    (hs : s ≠ "") (hlook : dictFind? dd (i ++ "_" ++ s) = none) :
    ∀ (sd : List (String × Option String)) (g : Graph), (i, some s) ∈ sd →
      erred (ingestAll dd sd g) = true := by
  intro sd
  induction sd with
  | nil => intro g h; cases h
  | cons p tl ih =>
    intro g hmem
    obtain ⟨j, sub⟩ := p
    show erred (match ingestEntry dd g j sub with
                | Except.error e => Except.error e
                | Except.ok g' => ingestAll dd tl g') = true
    rcases List.mem_cons.mp hmem with h1 | h2
    · simp only [Prod.mk.injEq] at h1
      obtain ⟨hij, hsub⟩ := h1
      subst hij
      subst hsub
      rw [ingestEntry_keyError dd g i s hs hlook]
      rfl
    · cases he : ingestEntry dd g j sub with
      | error e => rfl
      | ok g' => exact ih g' h2

/-- C10 counterexample: the claim says the run fails whenever some loaded
table name has three or more segments; with the two tables A_B and A_B_C
loaded, A_B_C has three segments yet the whole run succeeds (the rebuilt
key A_B matches the other table). -/
theorem triple_segment_lookup_cex :
    "A_B_C" ∈ ddPair.map Prod.fst ∧ 3 ≤ (pySplitUnderscore "A_B_C").length ∧
    erred (mainRun ddPair Graph.empty).1 = false :=
  ⟨by decide, by decide, by decide⟩

/-- C10 (amended): when a loaded table name has three or more
underscore-separated segments, the classifier keeps only its first two; if
the routing entry for the first segment still maps to the second segment,
that second segment is non-empty (Python truthiness: an empty second
segment, as in a name like A__C, is falsy at `if sector_dict[i]:` and
routes through the no-sub-sector branch, looking up the first segment
instead), and no loaded table is named first-segment underscore
second-segment, then processing that routing entry raises exactly the
table-lookup `KeyError` for the rebuilt two-segment key — never the full
three-segment name — and the end-to-end run fails, so the three-segment
table is never ingested. -/
theorem triple_segment_lookup_fails (dd : List (String × List Row)) (name i s : String)
    (g : Graph)
    (_hmem : name ∈ dd.map Prod.fst)
    (_hsplit : 3 ≤ (pySplitUnderscore name).length)
    (_hhead : (pySplitUnderscore name).headI = i)
    (_hsecond : (pySplitUnderscore name)[1]? = some s)
    (hroute : dictFind? (generate_sector_dict (dd.map Prod.fst)) i = some (some s))
    (hs : s ≠ "")
    (hlook : dictFind? dd (i ++ "_" ++ s) = none) :
    (∀ g' : Graph, ingestEntry dd g' i (some s) =
      .error (.keyError (i ++ "_" ++ s))) ∧
    erred (ingestAll dd (generate_sector_dict (dd.map Prod.fst)) g) = true :=
  ⟨fun g' => ingestEntry_keyError dd g' i s hs hlook,
   ingestAll_entry_fails dd i s hs hlook _ g (dictFind?_mem hroute)⟩

/-- C10 witness: with the single loaded table A_B_C, processing the routing
entry (A, B) raises the KeyError for the rebuilt key A_B and the run errs. -/
theorem triple_segment_lookup_fails_witness :
    ingestEntry ddTriple Graph.empty "A" (some "B") =
      .error (.keyError "A_B") ∧
    erred (ingestAll ddTriple (generate_sector_dict (ddTriple.map Prod.fst))
      Graph.empty) = true := by
  have h := triple_segment_lookup_fails ddTriple "A_B_C" "A" "B" Graph.empty (by decide)
    (by decide) (by decide) (by decide) (by decide) (by decide) (by decide)
  exact ⟨h.1 Graph.empty, h.2⟩

/-! ### C1 and C2: evaluation of the run at the failing inputs -/

/-- C1, evaluated at the failing input: the routing table for the single
table Retail_Grocery maps the sector id Retail to the sub-sector id Grocery,
but the full run creates the Sector node keyed Grocery and the Sub_Sector
node keyed Retail, with the HAS_SUB_SECTOR edge from Sector Grocery to
Sub_Sector Retail, and creates NO Sector node keyed Retail and no Sub_Sector
node keyed Grocery — the call site at line 175 passes sub_sector_name=i (the
sector key) and sector_name=sector_dict[i] (the sub-sector id), swapping the
two keys. -/
theorem sector_key_swap_eval :
    dictFind? (generate_sector_dict ["Retail_Grocery"]) "Retail" = some (some "Grocery") ∧
    (mainRun [("Retail_Grocery", [rowOhio])] Graph.empty).1.toOption = some gRetail ∧
    GNode.sector "Grocery" ∈ gRetail.nodes ∧
    GNode.subSector "Retail" ∈ gRetail.nodes ∧
    GEdge.mk (GNode.sector "Grocery") "HAS_SUB_SECTOR" (GNode.subSector "Retail")
      ∈ gRetail.edges ∧
    ¬ GNode.sector "Retail" ∈ gRetail.nodes ∧
    ¬ GNode.subSector "Grocery" ∈ gRetail.nodes :=
  ⟨by decide, by decide, by decide, by decide, by decide, by decide, by decide⟩

/-- C2, evaluated at the failing input: for the table Housing, whose routing
entry has no sub-sector, the run creates a placeholder Sub_Sector node named
None (Python `str(None)` is truthy, so the f-string emits the Sub_Sector
clauses) and anchors every Metric through it via Sub_Sector-REPORTS->Metric;
no Sector-REPORTS->Metric edge exists, so the metric anchor is never the
Sector node and the two routing cases do not produce the claimed
structurally distinct paths. -/
theorem placeholder_subsector_anchor_eval :
    dictFind? (generate_sector_dict ["Housing"]) "Housing" = some none ∧
    (mainRun [("Housing", [rowOhio])] Graph.empty).1.toOption = some gHousing ∧
    GNode.subSector "None" ∈ gHousing.nodes ∧
    GEdge.mk (GNode.subSector "None") "REPORTS"
      (GNode.metric "Employment" 2020 (Val.str "Cuyahoga")) ∈ gHousing.edges ∧
    ¬ GEdge.mk (GNode.sector "Housing") "REPORTS"
      (GNode.metric "Employment" 2020 (Val.str "Cuyahoga")) ∈ gHousing.edges :=
  ⟨by decide, by decide, by decide, by decide, by decide⟩
